import Mathlib

/-!
Verification of the pulseaudio-smooth-volume-change daemon
(src/daemon/src/main.rs) against its natural-language specification.

Shallow embedding conventions:
* Rust `f64` values are modelled as exact rationals (`ℚ`); the daemon's
  arithmetic is plain +, -, *, /, min, max, so the rational reading is the
  intended real-number semantics of the spec.
* libpulse `Volume` units (u32, with `Volume::NORMAL = 0x10000`) are
  modelled as `ℕ`.
* The threaded listener and the control loop communicate through an mpsc
  channel; the embedding feeds each control-loop iteration an optional
  `Message` (the result of `recv`/`try_recv`) plus a per-tick view of the
  audio subsystem (`Env`).
-/

namespace Pasv

/-- Models `ChangeVolume` (main.rs lines 14-18). -/
inductive ChangeVolume where
  | Increase (i : ℚ)
  | Absolute (a : ℚ)
deriving DecidableEq

/-- Models `ChangeVolume::collapse` (main.rs lines 20-25). -/
def ChangeVolume.collapse : ChangeVolume → ℚ → ℚ
  | .Increase i, absolute_volume => absolute_volume + i
  | .Absolute a, _ => a

/-- Models `Message` (main.rs lines 28-35); the one-shot reply slot of
`GetVolume` is represented by the reply component of `loop_tick`'s result. -/
inductive Message where
  | Change (volume : ChangeVolume) (duration : Option ℚ)
  | GetVolume
deriving DecidableEq

/-! ### Protocol codec (listener thread, main.rs lines 144-196) -/

/-- ASCII whitespace, as trimmed by `str::trim` on the payloads of interest
(the full Unicode whitespace set of Rust is not exercised by the protocol). -/
def is_wsp (c : Char) : Bool := c == ' ' || c == '\t' || c == '\n' || c == '\r'

/-- Models `str::trim` (main.rs line 150). -/
def trim_chars (s : List Char) : List Char :=
  ((s.dropWhile is_wsp).reverse.dropWhile is_wsp).reverse

/-- Models `str::split_once(' ')` (main.rs line 161): split at the first
space, if any. -/
def split_once_space : List Char → Option (List Char × List Char)
  | [] => none
  | c :: rest =>
      if c = ' ' then some ([], rest)
      else (split_once_space rest).map (fun p => (c :: p.1, p.2))

/-- Value of a decimal digit string. -/
def dec_digits (l : List Char) : ℕ := l.foldl (fun a c => 10 * a + (c.toNat - 48)) 0

/-- Unsigned part of the decimal-literal fragment of `str::parse::<f64>`:
digits, optionally a point and further digits, at least one digit in total. -/
def parse_unsigned (s : List Char) : Option ℚ :=
  match s.dropWhile Char.isDigit with
  | [] =>
      if (s.takeWhile Char.isDigit).isEmpty then none
      else some (dec_digits (s.takeWhile Char.isDigit) : ℚ)
  | '.' :: frac =>
      if frac.all Char.isDigit && !((s.takeWhile Char.isDigit).isEmpty && frac.isEmpty) then
        some ((dec_digits (s.takeWhile Char.isDigit) : ℚ)
          + (dec_digits frac : ℚ) / (10 : ℚ) ^ frac.length)
      else none
  | _ => none

/-- Models `str::parse::<f64>` (main.rs lines 163 and 171) on plain decimal
literals, read at exact rational value. The exponent, infinity and nan forms
of the f64 grammar are outside the fragment exercised by the wire protocol,
and a leading sign appears at most once, exactly as in Rust. -/
def parse_f64 (s : List Char) : Option ℚ :=
  match s with
  | '-' :: rest => (parse_unsigned rest).map (fun q => -q)
  | '+' :: rest => parse_unsigned rest
  | _ => parse_unsigned s

/-- Models the volume-spec parsing of the listener thread (main.rs lines
167-189): a leading plus or minus marks the change relative, a trailing
percent sign divides the parsed value by 100. -/
def parse_spec (spec : List Char) : Option ChangeVolume :=
  let relative : Bool := spec.head? == some '+' || spec.head? == some '-'
  let num := if relative then spec.tail else spec
  let percent : Bool := num.getLast? == some '%'
  let num2 := if percent then num.dropLast else num
  match parse_f64 num2 with
  | none => none
  | some v =>
      let v2 := if percent then v / 100 else v
      some (if relative then
              (if spec.head? == some '+' then .Increase v2 else .Increase (-v2))
            else .Absolute v2)

/-- Models the listener's handling of one connection payload (main.rs lines
150-196): trim, the get-volume literal, the optional duration token (whose
parse failure silently yields an absent duration), and the volume spec
(whose parse failure drops the request). -/
def parse_command (buf : List Char) : Option Message :=
  let trimmed := trim_chars buf
  if trimmed = ("get-volume".toList) then some .GetVolume
  else
    match split_once_space trimmed with
    | some (v, dur) => (parse_spec (trim_chars v)).map (fun cv => .Change cv (parse_f64 dur))
    | none => (parse_spec trimmed).map (fun cv => .Change cv none)

/-- Models the two-decimal percent rendering on main.rs line 156: the linear
volume times 100 with exactly two decimals and a percent sign, for the
nonnegative values that arise; nearest rounding. -/
def format_percent (q : ℚ) : List Char :=
  let cents := (round (q * 10000)).toNat
  Nat.toDigits 10 (cents / 100) ++ ['.']
    ++ (if cents % 100 < 10 then ['0'] else []) ++ Nat.toDigits 10 (cents % 100) ++ ['%']

/-- Models main.rs lines 154-158: the listener writes the formatted
percentage only when the controller reports a known volume; on `none`
nothing is written and the client sees an empty response. -/
def respond_query (v : Option ℚ) : Option (List Char) :=
  v.map format_percent

/-! ### Volume unit conversions (main.rs lines 342-354) -/

/-- Models `vol_to_linear` (main.rs lines 349-351); `Volume::NORMAL.0` is
0x10000 = 65536. Rust `f64::round` rounds half away from zero, which agrees
with `round` on the nonnegative values that arise here. -/
def vol_to_linear (v : ℕ) : ℚ := ((round ((v : ℚ) / 65536 * 10000) : ℤ) : ℚ) / 10000

/-- Models `vol_from_linear` (main.rs lines 352-354): the `as u32` cast
truncates and saturates at the ends of the u32 range. -/
def vol_from_linear (q : ℚ) : ℕ :=
  if q ≤ 0 then 0 else min (⌊q * 65536⌋).toNat (2 ^ 32 - 1)

/-- Models libpulse `ChannelVolumes::max` (pa_cvolume_max), used on main.rs
line 229: the largest channel volume. -/
def cv_max (l : List ℕ) : ℕ := l.foldl max 0

/-- Models libpulse `ChannelVolumes::avg` (pa_cvolume_avg), used on main.rs
line 275: the channel sum divided by the channel count in integer volume
units. -/
def cv_avg (l : List ℕ) : ℕ := l.sum / l.length

/-! ### The control loop (main.rs lines 81-308) -/

/-- Startup configuration (main.rs lines 84-89): default transition duration
and tick interval in whole milliseconds (u64 command-line values), and the
clamp flag (`clamp = !no-clamp`). -/
structure Config where
  duration : ℕ
  interval : ℕ
  clamp : Bool

/-- One tick's view of the audio subsystem: whether the sink cache is stale
(`sink_last_changed.elapsed() > 1s`, main.rs line 220), the default sink
`get_default_sink` would report, and the channel volumes (raw u32 units)
`get_volume` would report per sink. -/
structure Env where
  refreshSink : Bool
  defaultSink : Option String
  sinkVolumes : String → Option (List ℕ)

/-- Mutable state of the control loop (main.rs lines 127-135): `volume`
holds the target while a transition is in flight (`none` means idle). -/
structure St where
  volume : Option ℚ
  initial_volume : Option ℚ
  step : Option ℚ
  iterations : ℕ
  sink : Option String
  channels : Option ℕ

/-- Models main.rs lines 230-235: collapse the requested change against the
reference volume, floor at 0 unconditionally, cap at 1 when clamping. -/
def resolve_target (clamp : Bool) (change : ChangeVolume) (reference : ℚ) : ℚ :=
  let t := max (change.collapse reference) 0
  if clamp then min t 1 else t

/-- Models main.rs lines 238-243: a user-supplied duration is used when it
lies in [0, 1e9] milliseconds, else the configured default applies.
Durations are carried as exact milliseconds. -/
def used_duration_ms (cfg : Config) (user_duration : Option ℚ) : ℚ :=
  match user_duration with
  | some d => if 0 ≤ d ∧ d ≤ 1e9 then d else (cfg.duration : ℚ)
  | none => (cfg.duration : ℚ)

/-- `Duration::as_millis` of a nonnegative duration of `ms` milliseconds:
truncation to whole milliseconds. -/
def ms_floor (ms : ℚ) : ℕ := (⌊ms⌋).toNat

/-- Models main.rs lines 244-251: the per-tick step, an immediate jump when
the effective duration does not exceed the tick interval, else the delta
divided by `used_duration.as_millis() / interval.as_millis()` (integer
division). -/
def step_size (cfg : Config) (target i_volume : ℚ) (user_duration : Option ℚ) : ℚ :=
  let used := used_duration_ms cfg user_duration
  if used ≤ (cfg.interval : ℚ) then target - i_volume
  else (target - i_volume) / ((ms_floor used / cfg.interval : ℕ) : ℚ)

/-- Derived quantity (not a source variable): the divisor the created
transition uses, i.e. the index of the tick at which the interpolation
first reaches the target when target and initial volume differ. -/
def accept_ticks (cfg : Config) (user_duration : Option ℚ) : ℕ :=
  let used := used_duration_ms cfg user_duration
  if used ≤ (cfg.interval : ℚ) then 1 else ms_floor used / cfg.interval

/-- Models the message handling of one loop iteration (main.rs lines
212-281). Returns the updated state, whether the Rust loop hit a `continue`
(which skips the interpolation step of that iteration), and the reply sent
through a query's slot, if any. -/
def handle_message (cfg : Config) (e : Env) (m : Option Message) (s : St) :
    St × Bool × Option (Option ℚ) :=
  match m with
  | none => (s, false, none)
  | some .GetVolume =>
      match s.sink with
      | some sk =>
          (s, false, some ((e.sinkVolumes sk).map (fun vols => vol_to_linear (cv_avg vols))))
      | none => (s, false, some none)
  | some (.Change change user_duration) =>
      let sink := if s.sink.isNone || e.refreshSink then e.defaultSink else s.sink
      match sink with
      | none => ({ s with sink := none }, true, none)
      | some sk =>
          match e.sinkVolumes sk with
          | none => ({ s with sink := some sk }, true, none)
          | some vols =>
              let i_volume := vol_to_linear (cv_max vols)
              let target := resolve_target cfg.clamp change (s.volume.getD i_volume)
              ({ volume := some target
                 initial_volume := some i_volume
                 step := some (step_size cfg target i_volume user_duration)
                 iterations := 0
                 sink := some sk
                 channels := some vols.length }, false, none)

/-- Models the interpolation step of one loop iteration (main.rs lines
283-302): candidate `initial + step * iterations`; with the step's sign
fixed, overshoot is detected and the applied value snaps to the target,
clearing the in-flight transition. `0 ≤ step` models
`step.is_sign_positive()`; a negative-zero step is unreachable, since the
step is computed from a subtraction (and a division by a positive count)
whose zero outcome is positive zero in IEEE arithmetic. -/
def interp_tick (s : St) : St × Option ℚ :=
  match s.volume, s.initial_volume, s.step, s.sink, s.channels with
  | some target, some initial_volume, some step, some _, some _ =>
      let v := initial_volume + step * (s.iterations : ℚ)
      if 0 ≤ step then
        if target ≤ v then
          ({ s with volume := none, iterations := s.iterations + 1 }, some target)
        else ({ s with iterations := s.iterations + 1 }, some v)
      else
        if v ≤ target then
          ({ s with volume := none, iterations := s.iterations + 1 }, some target)
        else ({ s with iterations := s.iterations + 1 }, some v)
  | _, _, _, _, _ => ({ s with volume := none }, none)

/-- Models one full iteration of the control loop (main.rs lines 202-308):
message handling, then, unless that handling hit `continue`, one
interpolation step. Returns the new state, the volume-set call issued this
tick (its linear value, before the `vol_from_linear` conversion of
`set_volume`), and the query reply, if any. -/
def loop_tick (cfg : Config) (e : Env) (m : Option Message) (s : St) :
    St × Option ℚ × Option (Option ℚ) :=
  let r := handle_message cfg e m s
  if r.2.1 then (r.1, none, r.2.2)
  else ((interp_tick r.1).1, (interp_tick r.1).2, r.2.2)

/-- Iterates the control loop while no further command arrives (the
`try_recv` branch finding the channel empty). Collects the issued
volume-set values in order. -/
def run_silent (cfg : Config) (e : Env) : ℕ → St → St × List ℚ
  | 0, s => (s, [])
  | fuel + 1, s =>
      let r := loop_tick cfg e none s
      let rest := run_silent cfg e fuel r.1
      (rest.1, r.2.1.toList ++ rest.2)

/-- Accepts one command and then lets the loop run uninterrupted for `fuel`
further ticks. -/
def run_from (cfg : Config) (e : Env) (m : Message) (fuel : ℕ) (s : St) : St × List ℚ :=
  let r := loop_tick cfg e (some m) s
  let rest := run_silent cfg e fuel r.1
  (rest.1, r.2.1.toList ++ rest.2)

/-- Runs the control loop over an explicit schedule of per-tick
environments and incoming messages. -/
def run_trace (cfg : Config) : List (Env × Option Message) → St → St × List ℚ
  | [], s => (s, [])
  | p :: rest, s =>
      let r := loop_tick cfg p.1 p.2 s
      let next := run_trace cfg rest r.1
      (next.1, r.2.1.toList ++ next.2)

/-- Spec-side description of the volume-set values an uninterrupted
transition issues before its snap tick: ticks k, ..., k+m-1 of the affine
interpolation. -/
def tick_values (i0 st : ℚ) : ℕ → ℕ → List ℚ
  | _, 0 => []
  | k, m + 1 => (i0 + st * (k : ℚ)) :: tick_values i0 st (k + 1) m


section Helpers

lemma loop_tick_none (cfg : Config) (e : Env) (s : St) :
    loop_tick cfg e none s = ((interp_tick s).1, (interp_tick s).2, none) := rfl

lemma run_silent_zero (cfg : Config) (e : Env) (s : St) :
    run_silent cfg e 0 s = (s, []) := rfl

lemma run_silent_succ (cfg : Config) (e : Env) (fuel : ℕ) (s : St) :
    run_silent cfg e (fuel + 1) s =
      ((run_silent cfg e fuel (loop_tick cfg e none s).1).1,
        (loop_tick cfg e none s).2.1.toList
          ++ (run_silent cfg e fuel (loop_tick cfg e none s).1).2) := rfl

lemma interp_idle (iv stv : Option ℚ) (k : ℕ) (sks : Option String) (chs : Option ℕ) :
    interp_tick ⟨none, iv, stv, k, sks, chs⟩ = (⟨none, iv, stv, k, sks, chs⟩, none) := by
  simp [interp_tick]

lemma interp_no_sink (t : ℚ) (iv stv : Option ℚ) (k : ℕ) (chs : Option ℕ) :
    interp_tick ⟨some t, iv, stv, k, none, chs⟩ = (⟨none, iv, stv, k, none, chs⟩, none) := by
  cases iv <;> cases stv <;> cases chs <;> simp [interp_tick]

lemma interp_pos_cont (t i0 st : ℚ) (k : ℕ) (sk : String) (ch : ℕ)
    (h0 : 0 ≤ st) (hf : ¬ t ≤ i0 + st * (k : ℚ)) :
    interp_tick ⟨some t, some i0, some st, k, some sk, some ch⟩ =
      (⟨some t, some i0, some st, k + 1, some sk, some ch⟩, some (i0 + st * (k : ℚ))) := by
  simp [interp_tick, h0, hf]

lemma interp_pos_fin (t i0 st : ℚ) (k : ℕ) (sk : String) (ch : ℕ)
    (h0 : 0 ≤ st) (hf : t ≤ i0 + st * (k : ℚ)) :
    interp_tick ⟨some t, some i0, some st, k, some sk, some ch⟩ =
      (⟨none, some i0, some st, k + 1, some sk, some ch⟩, some t) := by
  simp [interp_tick, h0, hf]

lemma interp_neg_cont (t i0 st : ℚ) (k : ℕ) (sk : String) (ch : ℕ)
    (h0 : ¬ 0 ≤ st) (hf : ¬ i0 + st * (k : ℚ) ≤ t) :
    interp_tick ⟨some t, some i0, some st, k, some sk, some ch⟩ =
      (⟨some t, some i0, some st, k + 1, some sk, some ch⟩, some (i0 + st * (k : ℚ))) := by
  simp [interp_tick, h0, hf]

lemma interp_neg_fin (t i0 st : ℚ) (k : ℕ) (sk : String) (ch : ℕ)
    (h0 : ¬ 0 ≤ st) (hf : i0 + st * (k : ℚ) ≤ t) :
    interp_tick ⟨some t, some i0, some st, k, some sk, some ch⟩ =
      (⟨none, some i0, some st, k + 1, some sk, some ch⟩, some t) := by
  simp [interp_tick, h0, hf]

lemma run_silent_idle (cfg : Config) (e : Env) (fuel : ℕ) (iv stv : Option ℚ) (k : ℕ)
    (sks : Option String) (chs : Option ℕ) :
    run_silent cfg e fuel ⟨none, iv, stv, k, sks, chs⟩ = (⟨none, iv, stv, k, sks, chs⟩, []) := by
  induction fuel with
  | zero => rfl
  | succ n ih => rw [run_silent_succ, loop_tick_none, interp_idle]; simp [ih]

end Helpers



section ClosedForm

lemma tick_values_length (i0 st : ℚ) : ∀ m k, (tick_values i0 st k m).length = m := by
  intro m
  induction m with
  | zero => intro k; rfl
  | succ n ih => intro k; simp [tick_values, ih]

lemma run_silent_pos (cfg : Config) (e : Env) (t i0 st : ℚ) (sk : String) (ch : ℕ) (K : ℕ)
    (h0 : 0 ≤ st) (hK : ∀ j : ℕ, j < K → i0 + st * (j : ℚ) < t)
    (hKf : t ≤ i0 + st * (K : ℚ)) :
    ∀ fuel k, k ≤ K → K - k < fuel →
      run_silent cfg e fuel ⟨some t, some i0, some st, k, some sk, some ch⟩
        = (⟨none, some i0, some st, K + 1, some sk, some ch⟩,
            tick_values i0 st k (K - k) ++ [t]) := by
  intro fuel
  induction fuel with
  | zero => intro k _ h; omega
  | succ n ih =>
      intro k hk hfuel
      rcases eq_or_lt_of_le hk with rfl | hlt
      · rw [run_silent_succ, loop_tick_none, interp_pos_fin t i0 st k sk ch h0 hKf]
        simp [run_silent_idle, tick_values]
      · have hv : ¬ t ≤ i0 + st * (k : ℚ) := not_le.mpr (hK k hlt)
        rw [run_silent_succ, loop_tick_none, interp_pos_cont t i0 st k sk ch h0 hv]
        have hrec := ih (k + 1) hlt (by omega)
        simp only [hrec]
        have hm : K - k = (K - (k + 1)) + 1 := by omega
        simp [hm, tick_values]

lemma run_silent_neg (cfg : Config) (e : Env) (t i0 st : ℚ) (sk : String) (ch : ℕ) (K : ℕ)
    (h0 : ¬ 0 ≤ st) (hK : ∀ j : ℕ, j < K → t < i0 + st * (j : ℚ))
    (hKf : i0 + st * (K : ℚ) ≤ t) :
    ∀ fuel k, k ≤ K → K - k < fuel →
      run_silent cfg e fuel ⟨some t, some i0, some st, k, some sk, some ch⟩
        = (⟨none, some i0, some st, K + 1, some sk, some ch⟩,
            tick_values i0 st k (K - k) ++ [t]) := by
  intro fuel
  induction fuel with
  | zero => intro k _ h; omega
  | succ n ih =>
      intro k hk hfuel
      rcases eq_or_lt_of_le hk with rfl | hlt
      · rw [run_silent_succ, loop_tick_none, interp_neg_fin t i0 st k sk ch h0 hKf]
        simp [run_silent_idle, tick_values]
      · have hv : ¬ i0 + st * (k : ℚ) ≤ t := not_le.mpr (hK k hlt)
        rw [run_silent_succ, loop_tick_none, interp_neg_cont t i0 st k sk ch h0 hv]
        have hrec := ih (k + 1) hlt (by omega)
        simp only [hrec]
        have hm : K - k = (K - (k + 1)) + 1 := by omega
        simp [hm, tick_values]

end ClosedForm



section Accept

lemma handle_change_ok (cfg : Config) (e : Env) (v0 iv0 st0 : Option ℚ) (k0 : ℕ)
    (ch0 : Option ℕ) (sk : String) (vols : List ℕ) (cv : ChangeVolume) (ud : Option ℚ)
    (href : e.refreshSink = false) (hvols : e.sinkVolumes sk = some vols) :
    handle_message cfg e (some (.Change cv ud)) ⟨v0, iv0, st0, k0, some sk, ch0⟩ =
      (⟨some (resolve_target cfg.clamp cv (v0.getD (vol_to_linear (cv_max vols)))),
        some (vol_to_linear (cv_max vols)),
        some (step_size cfg (resolve_target cfg.clamp cv (v0.getD (vol_to_linear (cv_max vols))))
          (vol_to_linear (cv_max vols)) ud),
        0, some sk, some vols.length⟩, false, none) := by
  simp [handle_message, href, hvols]

lemma loop_tick_change_ok (cfg : Config) (e : Env) (v0 iv0 st0 : Option ℚ) (k0 : ℕ)
    (ch0 : Option ℕ) (sk : String) (vols : List ℕ) (cv : ChangeVolume) (ud : Option ℚ)
    (href : e.refreshSink = false) (hvols : e.sinkVolumes sk = some vols) :
    loop_tick cfg e (some (.Change cv ud)) ⟨v0, iv0, st0, k0, some sk, ch0⟩ =
      ((interp_tick ⟨some (resolve_target cfg.clamp cv (v0.getD (vol_to_linear (cv_max vols)))),
          some (vol_to_linear (cv_max vols)),
          some (step_size cfg (resolve_target cfg.clamp cv (v0.getD (vol_to_linear (cv_max vols))))
            (vol_to_linear (cv_max vols)) ud),
          0, some sk, some vols.length⟩).1,
       (interp_tick ⟨some (resolve_target cfg.clamp cv (v0.getD (vol_to_linear (cv_max vols)))),
          some (vol_to_linear (cv_max vols)),
          some (step_size cfg (resolve_target cfg.clamp cv (v0.getD (vol_to_linear (cv_max vols))))
            (vol_to_linear (cv_max vols)) ud),
          0, some sk, some vols.length⟩).2, none) := by
  unfold loop_tick
  rw [handle_change_ok cfg e v0 iv0 st0 k0 ch0 sk vols cv ud href hvols]
  rfl

lemma step_facts_pos (cfg : Config) (ud : Option ℚ) (T I : ℚ)
    (hi : 0 < cfg.interval) (hTI : I < T) :
    0 ≤ step_size cfg T I ud ∧
    (∀ j : ℕ, j < accept_ticks cfg ud → I + step_size cfg T I ud * (j : ℚ) < T) ∧
    T ≤ I + step_size cfg T I ud * ((accept_ticks cfg ud : ℕ) : ℚ) ∧
    1 ≤ accept_ticks cfg ud := by
  by_cases hc : used_duration_ms cfg ud ≤ (cfg.interval : ℚ)
  · simp only [step_size, accept_ticks, if_pos hc]
    refine ⟨by linarith, ?_, ?_, le_refl 1⟩
    · intro j hj
      have hj0 : j = 0 := by omega
      subst hj0
      push_cast
      linarith
    · push_cast
      linarith
  · simp only [step_size, accept_ticks, if_neg hc]
    have hused : (cfg.interval : ℚ) < used_duration_ms cfg ud := not_le.mp hc
    have h1 : (cfg.interval : ℤ) ≤ ⌊used_duration_ms cfg ud⌋ := by
      apply Int.le_floor.mpr
      push_cast
      linarith
    have h2 : cfg.interval ≤ ms_floor (used_duration_ms cfg ud) := by
      unfold ms_floor
      omega
    have hn1 : 1 ≤ ms_floor (used_duration_ms cfg ud) / cfg.interval :=
      (Nat.one_le_div_iff hi).mpr h2
    have hnQ : (0 : ℚ) < ((ms_floor (used_duration_ms cfg ud) / cfg.interval : ℕ) : ℚ) := by
      exact_mod_cast hn1
    refine ⟨div_nonneg (by linarith) hnQ.le, ?_, ?_, hn1⟩
    · intro j hj
      have hj' : (j : ℚ) < ((ms_floor (used_duration_ms cfg ud) / cfg.interval : ℕ) : ℚ) := by
        exact_mod_cast hj
      have hlt : (T - I) / ((ms_floor (used_duration_ms cfg ud) / cfg.interval : ℕ) : ℚ) * (j : ℚ)
          < T - I := by
        rw [div_mul_eq_mul_div, div_lt_iff₀ hnQ]
        exact mul_lt_mul_of_pos_left hj' (by linarith)
      linarith
    · rw [div_mul_cancel₀ _ (ne_of_gt hnQ)]
      linarith

lemma step_facts_neg (cfg : Config) (ud : Option ℚ) (T I : ℚ)
    (hi : 0 < cfg.interval) (hTI : T < I) :
    ¬ 0 ≤ step_size cfg T I ud ∧
    (∀ j : ℕ, j < accept_ticks cfg ud → T < I + step_size cfg T I ud * (j : ℚ)) ∧
    I + step_size cfg T I ud * ((accept_ticks cfg ud : ℕ) : ℚ) ≤ T ∧
    1 ≤ accept_ticks cfg ud := by
  by_cases hc : used_duration_ms cfg ud ≤ (cfg.interval : ℚ)
  · simp only [step_size, accept_ticks, if_pos hc]
    refine ⟨by simp; linarith, ?_, ?_, le_refl 1⟩
    · intro j hj
      have hj0 : j = 0 := by omega
      subst hj0
      push_cast
      linarith
    · push_cast
      linarith
  · simp only [step_size, accept_ticks, if_neg hc]
    have hused : (cfg.interval : ℚ) < used_duration_ms cfg ud := not_le.mp hc
    have h1 : (cfg.interval : ℤ) ≤ ⌊used_duration_ms cfg ud⌋ := by
      apply Int.le_floor.mpr
      push_cast
      linarith
    have h2 : cfg.interval ≤ ms_floor (used_duration_ms cfg ud) := by
      unfold ms_floor
      omega
    have hn1 : 1 ≤ ms_floor (used_duration_ms cfg ud) / cfg.interval :=
      (Nat.one_le_div_iff hi).mpr h2
    have hnQ : (0 : ℚ) < ((ms_floor (used_duration_ms cfg ud) / cfg.interval : ℕ) : ℚ) := by
      exact_mod_cast hn1
    refine ⟨by simp [not_le]; exact div_neg_of_neg_of_pos (by linarith) hnQ, ?_, ?_, hn1⟩
    · intro j hj
      have hj' : (j : ℚ) < ((ms_floor (used_duration_ms cfg ud) / cfg.interval : ℕ) : ℚ) := by
        exact_mod_cast hj
      have hlt : T - I < (T - I) / ((ms_floor (used_duration_ms cfg ud) / cfg.interval : ℕ) : ℚ)
          * (j : ℚ) := by
        rw [div_mul_eq_mul_div, lt_div_iff₀ hnQ]
        have := mul_lt_mul_of_neg_left hj' (show T - I < 0 by linarith)
        linarith [this]
      linarith
    · rw [div_mul_cancel₀ _ (ne_of_gt hnQ)]
      linarith

end Accept



section Master

lemma run_from_change (cfg : Config) (e : Env) (v0 iv0 st0 : Option ℚ) (k0 : ℕ)
    (ch0 : Option ℕ) (sk : String) (vols : List ℕ) (cv : ChangeVolume) (ud : Option ℚ)
    (fuel : ℕ) (hi : 0 < cfg.interval) (href : e.refreshSink = false)
    (hvols : e.sinkVolumes sk = some vols)
    (ht : resolve_target cfg.clamp cv (v0.getD (vol_to_linear (cv_max vols)))
            ≠ vol_to_linear (cv_max vols))
    (hfuel : accept_ticks cfg ud ≤ fuel) :
    run_from cfg e (.Change cv ud) fuel ⟨v0, iv0, st0, k0, some sk, ch0⟩
      = (⟨none, some (vol_to_linear (cv_max vols)),
          some (step_size cfg (resolve_target cfg.clamp cv (v0.getD (vol_to_linear (cv_max vols))))
            (vol_to_linear (cv_max vols)) ud),
          accept_ticks cfg ud + 1, some sk, some vols.length⟩,
         tick_values (vol_to_linear (cv_max vols))
           (step_size cfg (resolve_target cfg.clamp cv (v0.getD (vol_to_linear (cv_max vols))))
             (vol_to_linear (cv_max vols)) ud)
           0 (accept_ticks cfg ud)
           ++ [resolve_target cfg.clamp cv (v0.getD (vol_to_linear (cv_max vols)))]) := by
  have hKsplit : accept_ticks cfg ud - 0 = accept_ticks cfg ud := by omega
  rcases ht.lt_or_lt with hTI | hTI
  · -- target below the sampled initial volume: negative step
    obtain ⟨h0, hK, hKf, hK1⟩ := step_facts_neg cfg ud
      (resolve_target cfg.clamp cv (v0.getD (vol_to_linear (cv_max vols))))
      (vol_to_linear (cv_max vols)) hi hTI
    have hf : ¬ vol_to_linear (cv_max vols)
        + step_size cfg (resolve_target cfg.clamp cv (v0.getD (vol_to_linear (cv_max vols))))
          (vol_to_linear (cv_max vols)) ud * ((0 : ℕ) : ℚ)
        ≤ resolve_target cfg.clamp cv (v0.getD (vol_to_linear (cv_max vols))) := by
      push_cast
      simp only [mul_zero, add_zero]
      linarith
    unfold run_from
    rw [loop_tick_change_ok cfg e v0 iv0 st0 k0 ch0 sk vols cv ud href hvols,
      interp_neg_cont _ _ _ 0 sk vols.length h0 hf]
    simp only [zero_add]
    rw [run_silent_neg cfg e _ _ _ sk vols.length (accept_ticks cfg ud) h0 hK hKf fuel 1 hK1
        (by omega)]
    have hTsplit : accept_ticks cfg ud = (accept_ticks cfg ud - 1) + 1 := by omega
    rw [hTsplit]
    simp [tick_values]
  · -- target above the sampled initial volume: nonnegative step
    obtain ⟨h0, hK, hKf, hK1⟩ := step_facts_pos cfg ud
      (resolve_target cfg.clamp cv (v0.getD (vol_to_linear (cv_max vols))))
      (vol_to_linear (cv_max vols)) hi hTI
    have hf : ¬ resolve_target cfg.clamp cv (v0.getD (vol_to_linear (cv_max vols)))
        ≤ vol_to_linear (cv_max vols)
          + step_size cfg (resolve_target cfg.clamp cv (v0.getD (vol_to_linear (cv_max vols))))
            (vol_to_linear (cv_max vols)) ud * ((0 : ℕ) : ℚ) := by
      push_cast
      simp only [mul_zero, add_zero]
      linarith
    unfold run_from
    rw [loop_tick_change_ok cfg e v0 iv0 st0 k0 ch0 sk vols cv ud href hvols,
      interp_pos_cont _ _ _ 0 sk vols.length h0 hf]
    simp only [zero_add]
    rw [run_silent_pos cfg e _ _ _ sk vols.length (accept_ticks cfg ud) h0 hK hKf fuel 1 hK1
        (by omega)]
    have hTsplit : accept_ticks cfg ud = (accept_ticks cfg ud - 1) + 1 := by omega
    rw [hTsplit]
    simp [tick_values]

end Master



section Chains

lemma last_of_append {α : Type} (l : List α) (a : α) : (l ++ [a]).getLast? = some a := by
  rw [List.getLast?_append_of_ne_nil l (by simp)]
  rfl

lemma chain_le_ticks (i0 st t : ℚ) (hst : 0 ≤ st) :
    ∀ m k, (∀ j : ℕ, j < k + m → i0 + st * (j : ℚ) < t) →
      List.Chain' (· ≤ ·) (tick_values i0 st k m ++ [t]) := by
  intro m
  induction m with
  | zero => intro k _; simp [tick_values]
  | succ n ih =>
      intro k hk
      show List.Chain' (· ≤ ·) ((i0 + st * (k : ℚ)) :: (tick_values i0 st (k + 1) n ++ [t]))
      rw [List.chain'_cons']
      constructor
      · intro y hy
        cases n with
        | zero =>
            simp [tick_values] at hy
            subst hy
            exact (hk k (by omega)).le
        | succ n' =>
            simp [tick_values] at hy
            subst hy
            have : (k : ℚ) ≤ ((k + 1 : ℕ) : ℚ) := by push_cast; linarith
            nlinarith
      · exact ih (k + 1) (fun j hj => hk j (by omega))

lemma chain_ge_ticks (i0 st t : ℚ) (hst : st ≤ 0) :
    ∀ m k, (∀ j : ℕ, j < k + m → t < i0 + st * (j : ℚ)) →
      List.Chain' (· ≥ ·) (tick_values i0 st k m ++ [t]) := by
  intro m
  induction m with
  | zero => intro k _; simp [tick_values]
  | succ n ih =>
      intro k hk
      show List.Chain' (· ≥ ·) ((i0 + st * (k : ℚ)) :: (tick_values i0 st (k + 1) n ++ [t]))
      rw [List.chain'_cons']
      constructor
      · intro y hy
        cases n with
        | zero =>
            simp [tick_values] at hy
            subst hy
            exact (hk k (by omega)).le
        | succ n' =>
            simp [tick_values] at hy
            subst hy
            have : (k : ℚ) ≤ ((k + 1 : ℕ) : ℚ) := by push_cast; linarith
            nlinarith
      · exact ih (k + 1) (fun j hj => hk j (by omega))

end Chains


section CodecHelpers

lemma spec_char_not_wsp (c : Char) (h : Char.isDigit c ∨ c = '.') : is_wsp c = false := by
  by_contra hw
  rw [Bool.not_eq_false] at hw
  simp [is_wsp] at hw
  rcases hw with ((rfl | rfl) | rfl) | rfl <;> revert h <;> decide

lemma spec_char_ne (c : Char) (h : Char.isDigit c ∨ c = '.') :
    c ≠ '%' ∧ c ≠ '+' ∧ c ≠ '-' ∧ c ≠ ' ' := by
  rcases h with h | rfl
  · refine ⟨?_, ?_, ?_, ?_⟩ <;> rintro rfl <;> revert h <;> decide
  · refine ⟨by decide, by decide, by decide, by decide⟩

lemma dropWhile_id_of {p : Char → Bool} (l : List Char) (h : ∀ c ∈ l, p c = false) :
    l.dropWhile p = l := by
  cases l with
  | nil => rfl
  | cons c cs => simp [List.dropWhile, h c (List.mem_cons_self c cs)]

lemma trim_chars_eq_self (l : List Char) (h : ∀ c ∈ l, is_wsp c = false) :
    trim_chars l = l := by
  unfold trim_chars
  rw [dropWhile_id_of l h, dropWhile_id_of l.reverse (fun c hc => h c (List.mem_reverse.mp hc)),
    List.reverse_reverse]

lemma split_none_of_no_space (l : List Char) (h : ∀ c ∈ l, c ≠ ' ') :
    split_once_space l = none := by
  induction l with
  | nil => rfl
  | cons c cs ih =>
      simp only [split_once_space, if_neg (h c (List.mem_cons_self c cs))]
      rw [ih (fun x hx => h x (List.mem_cons_of_mem c hx))]
      rfl

lemma getLast_exists (l : List Char) (h : l ≠ []) : ∃ c ∈ l, l.getLast? = some c := by
  induction l with
  | nil => exact absurd rfl h
  | cons c cs ih =>
      cases hcs : cs with
      | nil => exact ⟨c, List.mem_cons_self c [], rfl⟩
      | cons d ds =>
          obtain ⟨x, hx, hlast⟩ := ih (by simp [hcs])
          subst hcs
          exact ⟨x, List.mem_cons_of_mem c hx, by rw [List.getLast?_cons_cons]; exact hlast⟩

lemma parse_unsigned_ne_nil (q : ℚ) (hq : parse_unsigned [] = some q) : False := by
  simp [parse_unsigned, List.takeWhile, List.dropWhile] at hq

lemma parse_unsigned_nonneg (w : List Char) (q : ℚ) (hq : parse_unsigned w = some q) :
    0 ≤ q := by
  unfold parse_unsigned at hq
  split at hq
  · split at hq
    · exact absurd hq (by simp)
    · simp only [Option.some.injEq] at hq
      rw [← hq]
      positivity
  · split at hq
    · simp only [Option.some.injEq] at hq
      rw [← hq]
      positivity
    · exact absurd hq (by simp)
  · exact absurd hq (by simp)

lemma parse_f64_no_sign (c : Char) (rest : List Char) (h1 : c ≠ '-') (h2 : c ≠ '+') :
    parse_f64 (c :: rest) = parse_unsigned (c :: rest) := by
  unfold parse_f64
  split <;> simp_all

end CodecHelpers



section SpecLemmas

lemma parse_spec_plus (w : List Char) (q : ℚ)
    (hw : ∀ c ∈ w, Char.isDigit c ∨ c = '.') (hq : parse_unsigned w = some q) :
    parse_spec ('+' :: w) = some (.Increase q) := by
  obtain ⟨c0, w', rfl⟩ : ∃ c0 w', w = c0 :: w' := by
    cases w with
    | nil => exact absurd hq (fun h => parse_unsigned_ne_nil q h)
    | cons a b => exact ⟨a, b, rfl⟩
  obtain ⟨c, hcmem, hclast⟩ := getLast_exists (c0 :: w') (by simp)
  have hpct : ((c0 :: w').getLast? == some '%') = false := by
    rw [hclast]
    simp [(spec_char_ne c (hw c hcmem)).1]
  have hf64 : parse_f64 (c0 :: w') = parse_unsigned (c0 :: w') :=
    parse_f64_no_sign c0 w' (spec_char_ne c0 (hw c0 (List.mem_cons_self c0 w'))).2.2.1
      (spec_char_ne c0 (hw c0 (List.mem_cons_self c0 w'))).2.1
  simp [parse_spec, hpct, hf64, hq]

lemma parse_spec_minus (w : List Char) (q : ℚ)
    (hw : ∀ c ∈ w, Char.isDigit c ∨ c = '.') (hq : parse_unsigned w = some q) :
    parse_spec ('-' :: w) = some (.Increase (-q)) := by
  obtain ⟨c0, w', rfl⟩ : ∃ c0 w', w = c0 :: w' := by
    cases w with
    | nil => exact absurd hq (fun h => parse_unsigned_ne_nil q h)
    | cons a b => exact ⟨a, b, rfl⟩
  obtain ⟨c, hcmem, hclast⟩ := getLast_exists (c0 :: w') (by simp)
  have hpct : ((c0 :: w').getLast? == some '%') = false := by
    rw [hclast]
    simp [(spec_char_ne c (hw c hcmem)).1]
  have hf64 : parse_f64 (c0 :: w') = parse_unsigned (c0 :: w') :=
    parse_f64_no_sign c0 w' (spec_char_ne c0 (hw c0 (List.mem_cons_self c0 w'))).2.2.1
      (spec_char_ne c0 (hw c0 (List.mem_cons_self c0 w'))).2.1
  simp [parse_spec, hpct, hf64, hq]

lemma parse_spec_pct (w : List Char) (q : ℚ)
    (hw : ∀ c ∈ w, Char.isDigit c ∨ c = '.') (hq : parse_unsigned w = some q) :
    parse_spec (w ++ ['%']) = some (.Absolute (q / 100)) := by
  obtain ⟨c0, w', rfl⟩ : ∃ c0 w', w = c0 :: w' := by
    cases w with
    | nil => exact absurd hq (fun h => parse_unsigned_ne_nil q h)
    | cons a b => exact ⟨a, b, rfl⟩
  have h1 : c0 ≠ '+' := (spec_char_ne c0 (hw c0 (List.mem_cons_self c0 w'))).2.1
  have h2 : c0 ≠ '-' := (spec_char_ne c0 (hw c0 (List.mem_cons_self c0 w'))).2.2.1
  have hlast : (c0 :: (w' ++ ['%'])).getLast? = some '%' := by
    rw [← List.cons_append]
    exact last_of_append _ _
  have hdrop : (c0 :: (w' ++ ['%'])).dropLast = c0 :: w' := by
    rw [← List.cons_append, List.dropLast_concat]
  have hf64 : parse_f64 (c0 :: w') = parse_unsigned (c0 :: w') :=
    parse_f64_no_sign c0 w' h2 h1
  simp [parse_spec, h1, h2, hlast, hdrop, hf64, hq]

lemma parse_command_of_token (spec : List Char)
    (hnw : ∀ c ∈ spec, is_wsp c = false) (hgv : spec ≠ ("get-volume".toList)) :
    parse_command spec = (parse_spec spec).map (fun cv => .Change cv none) := by
  have hns : ∀ c ∈ spec, c ≠ ' ' := by
    intro c hc heq
    subst heq
    exact absurd (hnw _ hc) (by decide)
  unfold parse_command
  rw [trim_chars_eq_self spec hnw, if_neg hgv, split_none_of_no_space spec hns]

end SpecLemmas


section ConcreteValues

lemma cv_max_13107 : cv_max [13107] = 13107 := by decide

lemma vtl_13107 : vol_to_linear 13107 = 1 / 5 := by
  norm_num [vol_to_linear, round_eq]

lemma vtl_65536 : vol_to_linear 65536 = 1 := by
  norm_num [vol_to_linear, round_eq]

lemma vtl_32768 : vol_to_linear 32768 = 1 / 2 := by
  norm_num [vol_to_linear, round_eq]

end ConcreteValues

/-- C4: for every accepted Change the resolved target volume is floored at 0
unconditionally; when the clamp flag is enabled (the default) it is
additionally capped at 1.0, so Increase(10.0) yields target exactly 1 from
any current volume, while with clamping disabled the same command's target
is unbounded above but still at least 0. -/
theorem c4_target_clamping :
    (∀ (clamp : Bool) (cv : ChangeVolume) (reference : ℚ),
        0 ≤ resolve_target clamp cv reference)
    ∧ (∀ (cv : ChangeVolume) (reference : ℚ), resolve_target true cv reference ≤ 1)
    ∧ (∀ reference : ℚ, 0 ≤ reference → resolve_target true (.Increase 10) reference = 1)
    ∧ (∀ reference : ℚ, resolve_target false (.Increase 10) reference = max (reference + 10) 0)
    ∧ (∀ M : ℚ, ∃ reference : ℚ, M < resolve_target false (.Increase 10) reference) := by
  refine ⟨?_, ?_, ?_, ?_, ?_⟩
  · intro clamp cv r
    cases clamp
    · exact le_max_right _ 0
    · exact le_min (le_max_right _ 0) zero_le_one
  · intro cv r
    exact min_le_right _ 1
  · intro r hr
    show min (max (r + 10) 0) 1 = 1
    rw [max_eq_left (by linarith), min_eq_right (by linarith)]
  · intro r
    rfl
  · intro M
    refine ⟨max M 0 + 1, ?_⟩
    show M < max (max M 0 + 1 + 10) 0
    calc M < max M 0 + 1 + 10 := by linarith [le_max_left M 0]
      _ ≤ max (max M 0 + 1 + 10) 0 := le_max_left _ 0

theorem c4_witness :
    (0 : ℚ) ≤ (1 / 5 : ℚ) ∧ resolve_target true (.Increase 10) (1 / 5) = 1 :=
  ⟨by norm_num, c4_target_clamping.2.2.1 (1 / 5) (by norm_num)⟩

/-- C6: a change payload whose space-separated second token fails to parse
as a float is still accepted as a Change with an absent duration, not
rejected. -/
theorem c6_malformed_duration (buf v d : List Char)
    (hsplit : split_once_space (trim_chars buf) = some (v, d))
    (hd : parse_f64 d = none) (m : Message) (hm : parse_command buf = some m) :
    ∃ cv : ChangeVolume, m = .Change cv none := by
  have hgv : trim_chars buf ≠ ("get-volume".toList) := by
    intro h
    rw [h] at hsplit
    have hnone : split_once_space ("get-volume".toList) = none := by decide
    rw [hnone] at hsplit
    exact Option.noConfusion hsplit
  unfold parse_command at hm
  rw [if_neg hgv, hsplit] at hm
  simp only [hd] at hm
  obtain ⟨cv, _, hcv⟩ := Option.map_eq_some'.mp hm
  exact ⟨cv, hcv.symm⟩

theorem c6_witness :
    split_once_space (trim_chars ("0.5 abc".toList)) = some ("0.5".toList, "abc".toList)
    ∧ parse_f64 ("abc".toList) = none
    ∧ parse_command ("0.5 abc".toList) = some (.Change (.Absolute (1 / 2)) none)
    ∧ ∃ cv : ChangeVolume, (Message.Change (.Absolute (1 / 2)) none) = .Change cv none := by
  have hcmd : parse_command ("0.5 abc".toList) = some (.Change (.Absolute (1 / 2)) none) := by
    have h0 : parse_command ("0.5 abc".toList)
        = some (.Change (.Absolute (((0 : ℕ) : ℚ) + ((5 : ℕ) : ℚ) / 10 ^ 1)) none) := rfl
    rw [h0]
    norm_num
  refine ⟨by decide, by decide, hcmd, ?_⟩
  exact c6_malformed_duration ("0.5 abc".toList) ("0.5".toList) ("abc".toList) (by decide)
    (by decide) (.Change (.Absolute (1 / 2)) none) hcmd

/-- C8: a serviced QueryVolume replies, when a sink is known, with the
volume freshly read from the audio subsystem averaged across channels (a
failed read yields the unknown reply), and with unknown when no sink is
known; the listener writes nothing for an unknown reply, so the client
sees an empty response. -/
theorem c8_query_reply (cfg : Config) (e : Env) (s : St) :
    (∀ sk : String, s.sink = some sk →
        (loop_tick cfg e (some .GetVolume) s).2.2
          = some ((e.sinkVolumes sk).map (fun vols => vol_to_linear (cv_avg vols))))
    ∧ (s.sink = none → (loop_tick cfg e (some .GetVolume) s).2.2 = some none)
    ∧ respond_query none = none := by
  refine ⟨?_, ?_, rfl⟩
  · intro sk hsk
    simp [loop_tick, handle_message, hsk]
  · intro hsk
    simp [loop_tick, handle_message, hsk]

theorem c8_witness :
    (⟨none, none, none, 0, some "s", some 2⟩ : St).sink = some "s"
    ∧ (loop_tick ⟨150, 10, true⟩ ⟨false, none, fun _ => some [2, 4]⟩ (some .GetVolume)
        ⟨none, none, none, 0, some "s", some 2⟩).2.2
      = some (((⟨false, none, fun _ => some [2, 4]⟩ : Env).sinkVolumes "s").map
          (fun vols => vol_to_linear (cv_avg vols))) :=
  ⟨rfl, (c8_query_reply ⟨150, 10, true⟩ ⟨false, none, fun _ => some [2, 4]⟩
      ⟨none, none, none, 0, some "s", some 2⟩).1 "s" rfl⟩

/-- C9: the controller aggregates channels differently at its two entry
points: accepting a Change samples the starting volume as the maximum
across channels (here 1), while a QueryVolume reply averages them (here
1/2), so on an unbalanced sink the Increase baseline differs from what
get-volume reports. -/
theorem c9_aggregation :
    ((handle_message ⟨150, 10, true⟩ ⟨false, none, fun _ => some [65536, 0]⟩
        (some (.Change (.Increase 0) none)) ⟨none, none, none, 0, some "s", some 2⟩).1.initial_volume
      = some 1)
    ∧ ((handle_message ⟨150, 10, true⟩ ⟨false, none, fun _ => some [65536, 0]⟩
        (some (.Change (.Increase 0) none)) ⟨none, none, none, 0, some "s", some 2⟩).1.volume
      = some 1)
    ∧ ((loop_tick ⟨150, 10, true⟩ ⟨false, none, fun _ => some [65536, 0]⟩
        (some .GetVolume) ⟨none, none, none, 0, some "s", some 2⟩).2.2
      = some (some (1 / 2)))
    ∧ (1 : ℚ) ≠ (1 / 2 : ℚ) := by
  have hmax : cv_max [65536, 0] = 65536 := by decide
  have havg : cv_avg [65536, 0] = 32768 := by decide
  have hmsg := handle_change_ok ⟨150, 10, true⟩ ⟨false, none, fun _ => some [65536, 0]⟩
    none none none 0 (some 2) "s" [65536, 0] (.Increase 0) none rfl rfl
  refine ⟨?_, ?_, ?_, by norm_num⟩
  · rw [hmsg]
    show some (vol_to_linear (cv_max [65536, 0])) = some 1
    rw [hmax, vtl_65536]
  · rw [hmsg]
    show some (resolve_target true (.Increase 0)
      ((none : Option ℚ).getD (vol_to_linear (cv_max [65536, 0])))) = some 1
    rw [hmax, vtl_65536]
    show some (min (max ((1 : ℚ) + 0) 0) 1) = some 1
    norm_num
  · simp only [loop_tick, handle_message]
    show some (some (vol_to_linear (cv_avg [65536, 0]))) = some (some (1 / 2))
    rw [havg, vtl_32768]

/-- C10: a Change arriving mid-transition whose sink-cache refresh finds no
default sink leaves the in-flight transition untouched for that tick (the
continue path, no volume set), and the very next tick silently clears it,
returning the controller to idle without the old target ever being
applied. -/
theorem c10_sinkless_abandon (cfg : Config) (e e2 : Env) (cv : ChangeVolume)
    (ud : Option ℚ) (t i0 st : ℚ) (k : ℕ) (sk : String) (ch : ℕ)
    (h1 : e.refreshSink = true) (h2 : e.defaultSink = none) :
    loop_tick cfg e (some (.Change cv ud)) ⟨some t, some i0, some st, k, some sk, some ch⟩
      = (⟨some t, some i0, some st, k, none, some ch⟩, none, none)
    ∧ loop_tick cfg e2 none ⟨some t, some i0, some st, k, none, some ch⟩
      = (⟨none, some i0, some st, k, none, some ch⟩, none, none) := by
  constructor
  · simp [loop_tick, handle_message, h1, h2]
  · rw [loop_tick_none, interp_no_sink]

theorem c10_witness :
    (⟨true, none, fun _ => none⟩ : Env).refreshSink = true
    ∧ (⟨true, none, fun _ => none⟩ : Env).defaultSink = none
    ∧ loop_tick ⟨150, 10, true⟩ ⟨true, none, fun _ => none⟩
        (some (.Change (.Increase 1) none)) ⟨some (1 / 2), some (1 / 5), some (3 / 100), 3, some "s", some 2⟩
      = (⟨some (1 / 2), some (1 / 5), some (3 / 100), 3, none, some 2⟩, none, none)
    ∧ loop_tick ⟨150, 10, true⟩ ⟨false, none, fun _ => none⟩ none
        ⟨some (1 / 2), some (1 / 5), some (3 / 100), 3, none, some 2⟩
      = (⟨none, some (1 / 5), some (3 / 100), 3, none, some 2⟩, none, none) :=
  ⟨rfl, rfl,
   (c10_sinkless_abandon ⟨150, 10, true⟩ ⟨true, none, fun _ => none⟩
      ⟨false, none, fun _ => none⟩ (.Increase 1) none (1 / 2) (1 / 5) (3 / 100) 3 "s" 2
      rfl rfl).1,
   (c10_sinkless_abandon ⟨150, 10, true⟩ ⟨true, none, fun _ => none⟩
      ⟨false, none, fun _ => none⟩ (.Increase 1) none (1 / 2) (1 / 5) (3 / 100) 3 "s" 2
      rfl rfl).2⟩


/-- C2 counterexample: from starting volume 0.20, the command for +0.30 over
100 ms at interval 10 issues ELEVEN volume-set ticks (the first tick
re-applies the starting volume 0.20), not the ceil(100 / 10) = 10 the claim
states; the listed values 0.20, 0.23, ..., 0.50 are themselves eleven
values. -/
theorem c2_counterexample :
    (run_from ⟨150, 10, true⟩ ⟨false, none, fun _ => some [13107]⟩
        (.Change (.Increase (3 / 10)) (some 100)) 12
        ⟨none, none, none, 0, some "s", some 1⟩).2
      = [1 / 5, 23 / 100, 13 / 50, 29 / 100, 8 / 25, 7 / 20, 19 / 50, 41 / 100, 11 / 25,
         47 / 100, 1 / 2]
    ∧ (run_from ⟨150, 10, true⟩ ⟨false, none, fun _ => some [13107]⟩
        (.Change (.Increase (3 / 10)) (some 100)) 12
        ⟨none, none, none, 0, some "s", some 1⟩).2.length ≠ 10 := by
  have hI : vol_to_linear (cv_max [13107]) = 1 / 5 := by rw [cv_max_13107, vtl_13107]
  have hT : resolve_target true (.Increase (3 / 10))
      ((none : Option ℚ).getD (1 / 5)) = 1 / 2 := by
    show min (max ((1 : ℚ) / 5 + 3 / 10) 0) 1 = 1 / 2
    norm_num
  have hat : accept_ticks ⟨150, 10, true⟩ (some 100) = 10 := by
    simp only [accept_ticks, used_duration_ms, ms_floor]
    norm_num
    decide
  have hst : step_size ⟨150, 10, true⟩ (1 / 2) (1 / 5) (some 100) = 3 / 100 := by
    simp only [step_size, used_duration_ms, ms_floor]
    norm_num
    rw [(by decide : Int.toNat 100 / 10 = 10)]
    norm_num
  have ht : resolve_target true (.Increase (3 / 10))
      ((none : Option ℚ).getD (vol_to_linear (cv_max [13107]))) ≠ vol_to_linear (cv_max [13107]) := by
    rw [hI, hT]
    norm_num
  have hrun := run_from_change ⟨150, 10, true⟩ ⟨false, none, fun _ => some [13107]⟩
    none none none 0 (some 1) "s" [13107] (.Increase (3 / 10)) (some 100) 12
    (by norm_num) rfl rfl ht (by rw [hat]; norm_num)
  rw [hrun]
  simp only [hI, hT, hat, hst]
  constructor
  · norm_num [tick_values]
  · simp [tick_values_length]

/-- C2 corrected: for an accepted Change with validated user duration d over
tick interval i where d > i and the resolved target differs from the
sampled starting volume, the number of volume-set ticks from acceptance
until idle is floor(d) / i + 1 (integer division; the extra tick is the
first one, which re-applies the starting volume, so the count is
ceil(d / i) only when i does not divide d), and the last applied value
equals the resolved target exactly. -/
theorem c2_tick_count (cfg : Config) (e : Env) (v0 iv0 st0 : Option ℚ) (k0 : ℕ)
    (ch0 : Option ℕ) (sk : String) (vols : List ℕ) (cv : ChangeVolume) (d : ℚ) (fuel : ℕ)
    (hi : 0 < cfg.interval) (href : e.refreshSink = false) (hvols : e.sinkVolumes sk = some vols)
    (hd0 : 0 ≤ d) (hd9 : d ≤ 1e9) (hdi : (cfg.interval : ℚ) < d)
    (ht : resolve_target cfg.clamp cv (v0.getD (vol_to_linear (cv_max vols)))
            ≠ vol_to_linear (cv_max vols))
    (hfuel : ms_floor d / cfg.interval ≤ fuel) :
    (run_from cfg e (.Change cv (some d)) fuel ⟨v0, iv0, st0, k0, some sk, ch0⟩).2.length
        = ms_floor d / cfg.interval + 1
    ∧ (run_from cfg e (.Change cv (some d)) fuel ⟨v0, iv0, st0, k0, some sk, ch0⟩).2.getLast?
        = some (resolve_target cfg.clamp cv (v0.getD (vol_to_linear (cv_max vols))))
    ∧ (run_from cfg e (.Change cv (some d)) fuel ⟨v0, iv0, st0, k0, some sk, ch0⟩).1.volume
        = none := by
  have hused : used_duration_ms cfg (some d) = d := by
    simp [used_duration_ms, hd0, hd9]
  have hat : accept_ticks cfg (some d) = ms_floor d / cfg.interval := by
    rw [accept_ticks, hused, if_neg (not_le.mpr hdi)]
  rw [run_from_change cfg e v0 iv0 st0 k0 ch0 sk vols cv (some d) fuel hi href hvols ht
    (by rw [hat]; exact hfuel)]
  refine ⟨?_, ?_, rfl⟩
  · simp [tick_values_length, hat]
  · exact last_of_append _ _

theorem c2_witness :
    ((10 : ℕ) : ℚ) < 100
    ∧ (run_from ⟨150, 10, true⟩ ⟨false, none, fun _ => some [13107]⟩
        (.Change (.Increase (3 / 10)) (some 100)) 10
        ⟨none, none, none, 0, some "s", some 1⟩).2.length = ms_floor 100 / 10 + 1 :=
  ⟨by norm_num,
   (c2_tick_count ⟨150, 10, true⟩ ⟨false, none, fun _ => some [13107]⟩ none none none 0
      (some 1) "s" [13107] (.Increase (3 / 10)) 100 10 (by norm_num) rfl rfl (by norm_num)
      (by norm_num) (by norm_num)
      (by rw [cv_max_13107, vtl_13107]
          show min (max ((1 : ℚ) / 5 + 3 / 10) 0) 1 ≠ 1 / 5
          norm_num)
      (by simp [ms_floor])).1⟩

/-- C3 counterexample: with duration 5 ms not exceeding the interval 10 ms,
the code applies TWO volume-set ticks (first the sampled starting volume
0.20, then the target 0.50), not the single target-valued tick the claim
states. -/
theorem c3_counterexample :
    (run_from ⟨150, 10, true⟩ ⟨false, none, fun _ => some [13107]⟩
        (.Change (.Increase (3 / 10)) (some 5)) 3
        ⟨none, none, none, 0, some "s", some 1⟩).2 = [1 / 5, 1 / 2]
    ∧ (run_from ⟨150, 10, true⟩ ⟨false, none, fun _ => some [13107]⟩
        (.Change (.Increase (3 / 10)) (some 5)) 3
        ⟨none, none, none, 0, some "s", some 1⟩).2.length ≠ 1 := by
  have h : (run_from ⟨150, 10, true⟩ ⟨false, none, fun _ => some [13107]⟩
      (.Change (.Increase (3 / 10)) (some 5)) 3
      ⟨none, none, none, 0, some "s", some 1⟩).2 = [1 / 5, 1 / 2] := by
    norm_num [run_from, run_silent, loop_tick, handle_message, interp_tick, resolve_target,
      ChangeVolume.collapse, vol_to_linear, cv_max, cv_avg, step_size, used_duration_ms,
      ms_floor, round_eq, Option.getD]
  rw [h]
  exact ⟨rfl, by norm_num⟩

/-- C3 corrected: for an accepted Change whose effective duration does not
exceed the tick interval (including an absent user duration with a default
not exceeding the interval), the step is the full undivided delta
(ticks_total = 1), but TWO volume-set ticks are applied when the target
differs from the sampled start: the first re-applies the sampled starting
volume and the second applies exactly the resolved target. -/
theorem c3_short_duration (cfg : Config) (e : Env) (v0 iv0 st0 : Option ℚ) (k0 : ℕ)
    (ch0 : Option ℕ) (sk : String) (vols : List ℕ) (cv : ChangeVolume) (ud : Option ℚ)
    (fuel : ℕ) (hi : 0 < cfg.interval) (href : e.refreshSink = false)
    (hvols : e.sinkVolumes sk = some vols)
    (hle : used_duration_ms cfg ud ≤ (cfg.interval : ℚ))
    (ht : resolve_target cfg.clamp cv (v0.getD (vol_to_linear (cv_max vols)))
            ≠ vol_to_linear (cv_max vols))
    (hfuel : 1 ≤ fuel) :
    (run_from cfg e (.Change cv ud) fuel ⟨v0, iv0, st0, k0, some sk, ch0⟩).2
      = [vol_to_linear (cv_max vols),
         resolve_target cfg.clamp cv (v0.getD (vol_to_linear (cv_max vols)))]
    ∧ (handle_message cfg e (some (.Change cv ud)) ⟨v0, iv0, st0, k0, some sk, ch0⟩).1.step
      = some (resolve_target cfg.clamp cv (v0.getD (vol_to_linear (cv_max vols)))
          - vol_to_linear (cv_max vols))
    ∧ (run_from cfg e (.Change cv ud) fuel ⟨v0, iv0, st0, k0, some sk, ch0⟩).1.volume
      = none := by
  have hat : accept_ticks cfg ud = 1 := by
    rw [accept_ticks, if_pos hle]
  refine ⟨?_, ?_, ?_⟩
  · rw [run_from_change cfg e v0 iv0 st0 k0 ch0 sk vols cv ud fuel hi href hvols ht
      (by rw [hat]; exact hfuel)]
    rw [hat]
    norm_num [tick_values]
  · rw [handle_change_ok cfg e v0 iv0 st0 k0 ch0 sk vols cv ud href hvols]
    show some (step_size cfg _ _ ud) = _
    rw [step_size, if_pos hle]
  · rw [run_from_change cfg e v0 iv0 st0 k0 ch0 sk vols cv ud fuel hi href hvols ht
      (by rw [hat]; exact hfuel)]

theorem c3_witness :
    used_duration_ms ⟨150, 10, true⟩ (some 5) ≤ ((10 : ℕ) : ℚ)
    ∧ (run_from ⟨150, 10, true⟩ ⟨false, none, fun _ => some [13107]⟩
        (.Change (.Increase (3 / 10)) (some 5)) 1
        ⟨none, none, none, 0, some "s", some 1⟩).2
      = [vol_to_linear (cv_max [13107]),
         resolve_target true (.Increase (3 / 10))
           ((none : Option ℚ).getD (vol_to_linear (cv_max [13107])))] :=
  ⟨by norm_num [used_duration_ms],
   (c3_short_duration ⟨150, 10, true⟩ ⟨false, none, fun _ => some [13107]⟩ none none none 0
      (some 1) "s" [13107] (.Increase (3 / 10)) (some 5) 1 (by norm_num) rfl rfl
      (by norm_num [used_duration_ms])
      (by rw [cv_max_13107, vtl_13107]
          show min (max ((1 : ℚ) / 5 + 3 / 10) 0) 1 ≠ 1 / 5
          norm_num)
      (le_refl 1)).1⟩

/-- C7: during a single uninterrupted transition the applied values are
monotone in the direction of the step's sign (non-decreasing for a
non-negative step, non-increasing for a negative one), the step stored in
the state never changes sign mid-transition, and the terminal tick snaps
the applied value to exactly the target. -/
theorem c7_monotone (cfg : Config) (e : Env) (v0 iv0 st0 : Option ℚ) (k0 : ℕ)
    (ch0 : Option ℕ) (sk : String) (vols : List ℕ) (cv : ChangeVolume) (ud : Option ℚ)
    (fuel : ℕ) (hi : 0 < cfg.interval) (href : e.refreshSink = false)
    (hvols : e.sinkVolumes sk = some vols)
    (ht : resolve_target cfg.clamp cv (v0.getD (vol_to_linear (cv_max vols)))
            ≠ vol_to_linear (cv_max vols))
    (hfuel : accept_ticks cfg ud ≤ fuel) :
    (0 ≤ step_size cfg (resolve_target cfg.clamp cv (v0.getD (vol_to_linear (cv_max vols))))
          (vol_to_linear (cv_max vols)) ud →
        (run_from cfg e (.Change cv ud) fuel ⟨v0, iv0, st0, k0, some sk, ch0⟩).2.Chain' (· ≤ ·))
    ∧ (step_size cfg (resolve_target cfg.clamp cv (v0.getD (vol_to_linear (cv_max vols))))
          (vol_to_linear (cv_max vols)) ud < 0 →
        (run_from cfg e (.Change cv ud) fuel ⟨v0, iv0, st0, k0, some sk, ch0⟩).2.Chain' (· ≥ ·))
    ∧ (run_from cfg e (.Change cv ud) fuel ⟨v0, iv0, st0, k0, some sk, ch0⟩).2.getLast?
      = some (resolve_target cfg.clamp cv (v0.getD (vol_to_linear (cv_max vols))))
    ∧ (run_from cfg e (.Change cv ud) fuel ⟨v0, iv0, st0, k0, some sk, ch0⟩).1.step
      = some (step_size cfg (resolve_target cfg.clamp cv (v0.getD (vol_to_linear (cv_max vols))))
          (vol_to_linear (cv_max vols)) ud) := by
  rw [run_from_change cfg e v0 iv0 st0 k0 ch0 sk vols cv ud fuel hi href hvols ht hfuel]
  refine ⟨?_, ?_, last_of_append _ _, rfl⟩
  · intro h0
    have hTI : vol_to_linear (cv_max vols)
        < resolve_target cfg.clamp cv (v0.getD (vol_to_linear (cv_max vols))) := by
      rcases ht.lt_or_lt with h | h
      · exact absurd h0 (step_facts_neg cfg ud _ _ hi h).1
      · exact h
    obtain ⟨_, hK, _, _⟩ := step_facts_pos cfg ud _ _ hi hTI
    exact chain_le_ticks _ _ _ h0 (accept_ticks cfg ud) 0 (fun j hj => hK j (by omega))
  · intro h0
    have hTI : resolve_target cfg.clamp cv (v0.getD (vol_to_linear (cv_max vols)))
        < vol_to_linear (cv_max vols) := by
      rcases ht.lt_or_lt with h | h
      · exact h
      · exact absurd (step_facts_pos cfg ud _ _ hi h).1 (not_le.mpr h0)
    obtain ⟨_, hK, _, _⟩ := step_facts_neg cfg ud _ _ hi hTI
    exact chain_ge_ticks _ _ _ h0.le (accept_ticks cfg ud) 0 (fun j hj => hK j (by omega))

theorem c7_witness :
    (0 < 10)
    ∧ (run_from ⟨150, 10, true⟩ ⟨false, none, fun _ => some [13107]⟩
        (.Change (.Increase (3 / 10)) (some 100)) 10
        ⟨none, none, none, 0, some "s", some 1⟩).2.getLast?
      = some (resolve_target true (.Increase (3 / 10))
          ((none : Option ℚ).getD (vol_to_linear (cv_max [13107])))) :=
  ⟨by norm_num,
   (c7_monotone ⟨150, 10, true⟩ ⟨false, none, fun _ => some [13107]⟩ none none none 0
      (some 1) "s" [13107] (.Increase (3 / 10)) (some 100) 10 (by norm_num) rfl rfl
      (by rw [cv_max_13107, vtl_13107]
          show min (max ((1 : ℚ) / 5 + 3 / 10) 0) 1 ≠ 1 / 5
          norm_num)
      (by simp only [accept_ticks, used_duration_ms, ms_floor]
          norm_num
          decide)).2.2.1⟩


/-- C1 counterexample: with the hardware at 0.20, command A (absolute 0 over
1000 ms) is accepted and applies its first tick 0.20; at that moment the
interpolated/applied volume is 0.20. Command B (+0.30 over 20 ms) then
preempts. The claim predicts a final value of 0.20 + 0.30 = 0.50, but the
code collapses B against A's stored TARGET (0), so the final applied value
is 0 + 0.30 = 0.30. -/
theorem c1_counterexample :
    run_from ⟨150, 10, true⟩ ⟨false, none, fun _ => some [13107]⟩
        (.Change (.Absolute 0) (some 1000)) 0
        ⟨none, none, none, 0, some "s", some 1⟩
      = (⟨some 0, some (1 / 5), some (-(1 / 500)), 1, some "s", some 1⟩, [1 / 5])
    ∧ (run_from ⟨150, 10, true⟩ ⟨false, none, fun _ => some [13107]⟩
        (.Change (.Increase (3 / 10)) (some 20)) 3
        ⟨some 0, some (1 / 5), some (-(1 / 500)), 1, some "s", some 1⟩).2
      = [1 / 5, 1 / 4, 3 / 10]
    ∧ (run_from ⟨150, 10, true⟩ ⟨false, none, fun _ => some [13107]⟩
        (.Change (.Increase (3 / 10)) (some 20)) 3
        ⟨some 0, some (1 / 5), some (-(1 / 500)), 1, some "s", some 1⟩).2.getLast?
      = some (3 / 10)
    ∧ (3 / 10 : ℚ) ≠ 1 / 5 + 3 / 10 := by
  have hI : vol_to_linear (cv_max [13107]) = 1 / 5 := by rw [cv_max_13107, vtl_13107]
  have hTA : resolve_target true (.Absolute 0)
      ((none : Option ℚ).getD (vol_to_linear (cv_max [13107]))) = 0 := by
    show min (max (0 : ℚ) 0) 1 = 0
    norm_num
  have hstA : step_size ⟨150, 10, true⟩ 0 (1 / 5) (some 1000) = -(1 / 500) := by
    simp only [step_size, used_duration_ms, ms_floor]
    norm_num
    rw [(by decide : Int.toNat 1000 / 10 = 100)]
    norm_num
  have hTB : resolve_target true (.Increase (3 / 10)) (0 : ℚ) = 3 / 10 := by
    show min (max ((0 : ℚ) + 3 / 10) 0) 1 = 3 / 10
    norm_num
  have hstB : step_size ⟨150, 10, true⟩ (3 / 10) (1 / 5) (some 20) = 1 / 20 := by
    simp only [step_size, used_duration_ms, ms_floor]
    norm_num
    rw [(by decide : Int.toNat 20 / 10 = 2)]
    norm_num
  have hatB : accept_ticks ⟨150, 10, true⟩ (some 20) = 2 := by
    simp only [accept_ticks, used_duration_ms, ms_floor]
    norm_num
    decide
  have hrunB := run_from_change ⟨150, 10, true⟩ ⟨false, none, fun _ => some [13107]⟩
    (some 0) (some (1 / 5)) (some (-(1 / 500))) 1 (some 1) "s" [13107]
    (.Increase (3 / 10)) (some 20) 3 (by norm_num) rfl rfl
    (by show resolve_target true (.Increase (3 / 10)) (0 : ℚ) ≠ vol_to_linear (cv_max [13107])
        rw [hTB, hI]
        norm_num)
    (by rw [hatB]; norm_num)
  refine ⟨?_, ?_, ?_, by norm_num⟩
  · unfold run_from
    rw [loop_tick_change_ok ⟨150, 10, true⟩ ⟨false, none, fun _ => some [13107]⟩
      none none none 0 (some 1) "s" [13107] (.Absolute 0) (some 1000) rfl rfl]
    simp only [List.length_singleton]
    rw [hTA, hI, hstA]
    rw [interp_neg_cont 0 (1 / 5) (-(1 / 500)) 0 "s" 1 (by norm_num)
      (by push_cast; norm_num)]
    rw [run_silent_zero]
    norm_num [Option.toList]
  · rw [hrunB]
    simp only [hI, Option.getD_some, hTB, hstB, hatB]
    norm_num [tick_values]
  · rw [hrunB]
    show (tick_values _ _ 0 _ ++
      [resolve_target true (.Increase (3 / 10)) (0 : ℚ)]).getLast? = some (3 / 10)
    rw [hTB]
    exact last_of_append _ _

/-- C1 corrected: a Change B arriving while a transition from A is in
progress does discard A's TransitionState, but B's target is built by
collapsing B's VolumeChange against A's stored TARGET (the `volume`
variable), not against the currently interpolated volume; the freshly
sampled sink volume only becomes the new initial value. For a relative
Increase the final applied value is thus A's target plus B's delta
(floored at 0, capped at 1 when clamping). -/
theorem c1_preemption (cfg : Config) (e : Env) (tA iA stA : ℚ) (kA : ℕ) (chA : Option ℕ)
    (sk : String) (vols : List ℕ) (δ : ℚ) (ud : Option ℚ) (fuel : ℕ)
    (hi : 0 < cfg.interval) (href : e.refreshSink = false)
    (hvols : e.sinkVolumes sk = some vols)
    (ht : resolve_target cfg.clamp (.Increase δ) tA ≠ vol_to_linear (cv_max vols))
    (hfuel : accept_ticks cfg ud ≤ fuel) :
    (handle_message cfg e (some (.Change (.Increase δ) ud))
        ⟨some tA, some iA, some stA, kA, some sk, chA⟩).1.volume
      = some (resolve_target cfg.clamp (.Increase δ) tA)
    ∧ resolve_target cfg.clamp (.Increase δ) tA
      = (if cfg.clamp then min (max (tA + δ) 0) 1 else max (tA + δ) 0)
    ∧ (run_from cfg e (.Change (.Increase δ) ud) fuel
        ⟨some tA, some iA, some stA, kA, some sk, chA⟩).2.getLast?
      = some (resolve_target cfg.clamp (.Increase δ) tA)
    ∧ (run_from cfg e (.Change (.Increase δ) ud) fuel
        ⟨some tA, some iA, some stA, kA, some sk, chA⟩).1.initial_volume
      = some (vol_to_linear (cv_max vols)) := by
  have ht' : resolve_target cfg.clamp (.Increase δ)
      ((some tA).getD (vol_to_linear (cv_max vols))) ≠ vol_to_linear (cv_max vols) := ht
  refine ⟨?_, rfl, ?_, ?_⟩
  · rw [handle_change_ok cfg e (some tA) (some iA) (some stA) kA chA sk vols
      (.Increase δ) ud href hvols]
    rfl
  · rw [run_from_change cfg e (some tA) (some iA) (some stA) kA chA sk vols
      (.Increase δ) ud fuel hi href hvols ht' hfuel]
    exact last_of_append _ _
  · rw [run_from_change cfg e (some tA) (some iA) (some stA) kA chA sk vols
      (.Increase δ) ud fuel hi href hvols ht' hfuel]

theorem c1_witness :
    resolve_target true (.Increase (3 / 10)) 0 ≠ vol_to_linear (cv_max [13107])
    ∧ (run_from ⟨150, 10, true⟩ ⟨false, none, fun _ => some [13107]⟩
        (.Change (.Increase (3 / 10)) (some 20)) 3
        ⟨some 0, some (1 / 5), some (-(1 / 500)), 1, some "s", some 1⟩).2.getLast?
      = some (resolve_target true (.Increase (3 / 10)) 0) := by
  have ht : resolve_target true (.Increase (3 / 10)) 0 ≠ vol_to_linear (cv_max [13107]) := by
    rw [cv_max_13107, vtl_13107]
    show min (max ((0 : ℚ) + 3 / 10) 0) 1 ≠ 1 / 5
    norm_num
  exact ⟨ht,
    (c1_preemption ⟨150, 10, true⟩ ⟨false, none, fun _ => some [13107]⟩ 0 (1 / 5)
      (-(1 / 500)) 1 (some 1) "s" [13107] (3 / 10) (some 20) 3 (by norm_num) rfl rfl ht
      (by simp only [accept_ticks, used_duration_ms, ms_floor]
          norm_num
          decide)).2.2.1⟩


/-- C5: the codec maps the exact payloads "+0.1", "-10%", "50%", "0.5 200"
and (trimmed) "get-volume" to the stated commands, and in general, for a
numeric token w: a leading plus or minus marks the change relative, a
trailing percent sign divides the parsed number by 100, and "-X" with X
nonnegative produces Increase(-X). -/
theorem c5_codec (w : List Char) (q : ℚ)
    (hw : ∀ c ∈ w, Char.isDigit c ∨ c = '.') (hq : parse_unsigned w = some q) :
    parse_command ("+0.1".toList) = some (.Change (.Increase (1 / 10)) none)
    ∧ parse_command ("-10%".toList) = some (.Change (.Increase (-(1 / 10))) none)
    ∧ parse_command ("50%".toList) = some (.Change (.Absolute (1 / 2)) none)
    ∧ parse_command ("0.5 200".toList) = some (.Change (.Absolute (1 / 2)) (some 200))
    ∧ parse_command (" get-volume ".toList) = some .GetVolume
    ∧ parse_command ('+' :: w) = some (.Change (.Increase q) none)
    ∧ parse_command ('-' :: w) = some (.Change (.Increase (-q)) none)
    ∧ parse_command (w ++ ['%']) = some (.Change (.Absolute (q / 100)) none)
    ∧ 0 ≤ q := by
  have hne : w ≠ [] := by
    intro h
    subst h
    exact parse_unsigned_ne_nil q hq
  have hnwp : ∀ c ∈ '+' :: w, is_wsp c = false := by
    intro c hc
    rcases List.mem_cons.mp hc with rfl | hc
    · rfl
    · exact spec_char_not_wsp c (hw c hc)
  have hnwm : ∀ c ∈ '-' :: w, is_wsp c = false := by
    intro c hc
    rcases List.mem_cons.mp hc with rfl | hc
    · rfl
    · exact spec_char_not_wsp c (hw c hc)
  have hnwpct : ∀ c ∈ w ++ ['%'], is_wsp c = false := by
    intro c hc
    rcases List.mem_append.mp hc with hc | hc
    · exact spec_char_not_wsp c (hw c hc)
    · rcases List.mem_singleton.mp hc with rfl
      rfl
  have hgvp : ('+' :: w) ≠ ("get-volume".toList) := by
    intro h
    rw [(by rfl : ("get-volume".toList) = 'g' :: "et-volume".toList)] at h
    injection h with h1 _
    exact absurd h1 (by decide)
  have hgvm : ('-' :: w) ≠ ("get-volume".toList) := by
    intro h
    rw [(by rfl : ("get-volume".toList) = 'g' :: "et-volume".toList)] at h
    injection h with h1 _
    exact absurd h1 (by decide)
  have hgvpct : (w ++ ['%']) ≠ ("get-volume".toList) := by
    intro h
    have h2 := congrArg List.getLast? h
    rw [last_of_append] at h2
    rw [(by decide : ("get-volume".toList).getLast? = some 'e')] at h2
    injection h2 with h3
    exact absurd h3 (by decide)
  refine ⟨?_, ?_, ?_, ?_, by decide, ?_, ?_, ?_, parse_unsigned_nonneg w q hq⟩
  · have h : parse_command ("+0.1".toList)
        = some (.Change (.Increase (((0 : ℕ) : ℚ) + ((1 : ℕ) : ℚ) / 10 ^ 1)) none) := rfl
    rw [h]
    norm_num
  · have h : parse_command ("-10%".toList)
        = some (.Change (.Increase (-(((10 : ℕ) : ℚ) / 100))) none) := rfl
    rw [h]
    norm_num
  · have h : parse_command ("50%".toList)
        = some (.Change (.Absolute (((50 : ℕ) : ℚ) / 100)) none) := rfl
    rw [h]
    norm_num
  · have h : parse_command ("0.5 200".toList)
        = some (.Change (.Absolute (((0 : ℕ) : ℚ) + ((5 : ℕ) : ℚ) / 10 ^ 1))
            (some ((200 : ℕ) : ℚ))) := rfl
    rw [h]
    norm_num
  · rw [parse_command_of_token ('+' :: w) hnwp hgvp, parse_spec_plus w q hw hq]
    rfl
  · rw [parse_command_of_token ('-' :: w) hnwm hgvm, parse_spec_minus w q hw hq]
    rfl
  · rw [parse_command_of_token (w ++ ['%']) hnwpct hgvpct, parse_spec_pct w q hw hq]
    rfl

theorem c5_witness :
    (∀ c ∈ ("10".toList), Char.isDigit c ∨ c = '.')
    ∧ parse_unsigned ("10".toList) = some 10
    ∧ parse_command ('-' :: "10".toList) = some (.Change (.Increase (-10)) none) := by
  have hq : parse_unsigned ("10".toList) = some 10 := by
    have h : parse_unsigned ("10".toList) = some ((dec_digits ['1', '0'] : ℕ) : ℚ) := rfl
    rw [h, (by decide : dec_digits ['1', '0'] = 10)]
    norm_num
  exact ⟨by decide, hq,
    (c5_codec ("10".toList) 10 (by decide) hq).2.2.2.2.2.2.1⟩


end Pasv
